import Mathlib

/-!
# Verification of the peon-ping session registry and permission rendezvous

Shallow embedding of the core of `peon-ping-go`:

* the session-state registry (`actionbar.go`: `ActionBarSession`,
  `modifyActionBar`, `writeActionBarSession`, `removeActionBarSession`,
  `updateActionBarPermission`, `clearActionBarPermission`);
* the permission-request/response rendezvous loop driven by the hook
  process (`handlePermissionRequest` in the main package);
* the UI reader's classification of registry records, including the
  heartbeat-staleness override (`abDoRead`, `abNeedsAttention`,
  `abStateIcon` and the inline icon selection of the paint routine in
  `helper/actionbar.go`).

Modelling conventions:

* The registry document `{"sessions": {...}}` is a JSON object mapping
  session id to record; it is embedded as an association list
  `Sessions := List (String × ActionBarSession)`.  Go map lookup,
  assignment and `delete` become `absLookup`, `absInsert` (replace the
  first binding in place, or append) and `absErase` (drop every binding
  of the key).  A JSON object has no duplicate keys, so theorems that
  need it take a `NodupKeys` hypothesis.
* Go `json.RawMessage` payloads are carried as opaque `String`s, with
  `""` standing for the nil / zero-length message (both are dropped by
  `omitempty`, and the code only ever tests `len(x) > 0`).
* Unix timestamps (`time.Now().Unix()`) are `Int` seconds, passed in
  explicitly as `now` parameters.
* Filesystem effects of one mutator call are pure state transformers.
  The early `sessionID == ""` return in each mutator happens *before*
  `modifyActionBar` is entered, i.e. before the lock file is opened,
  the registry file read or written; this is embedded by the `...Op`
  functions returning `none` (no registry transaction at all) or
  `some f` (one locked read-modify-write applying `f`).
-/

namespace PeonPing

/-- A Go `json.RawMessage` payload, kept opaque.  `""` models the
nil / empty message (`omitempty` drops both; the source only ever
checks `len(x) > 0`). -/
abbrev RawMessage := String

/-- `ActionBarSession` from `actionbar.go` (lines 28–37): one Claude Code
session as stored in `.actionbar.json`.  Field names follow the JSON
tags (`project`, `state`, `message`, `hwnd`, `updated_at`, `tool_name`,
`tool_input`, `permission_suggestions`). -/
structure ActionBarSession where
  project : String
  state : String
  message : String
  hwnd : Nat
  updatedAt : Int
  toolName : String
  toolInput : RawMessage
  permissionSuggestions : RawMessage
deriving Repr, DecidableEq

/-- The `sessions` object of `ActionBarState`, embedded as an
association list keyed by session id. -/
abbrev Sessions := List (String × ActionBarSession)

/-- The keys of a registry document are pairwise distinct (always true
of a JSON object / Go map; the list embedding must assume it where the
position of a binding matters). -/
abbrev NodupKeys (l : Sessions) : Prop :=
  (l.map Prod.fst).Nodup

/-- Go map read `abs.Sessions[sessionID]`: the value of the first
binding of the key, if any. -/
def absLookup (sid : String) : Sessions → Option ActionBarSession
  | [] => none
  | (k, v) :: rest => if k = sid then some v else absLookup sid rest

/-- Go map assignment `abs.Sessions[sessionID] = s`: replace the first
binding of the key in place, or append a new binding. -/
def absInsert (sid : String) (v : ActionBarSession) : Sessions → Sessions
  | [] => [(sid, v)]
  | (k, w) :: rest => if k = sid then (k, v) :: rest else (k, w) :: absInsert sid v rest

/-- Go map removal `delete(abs.Sessions, sessionID)`: drop every binding
of the key. -/
def absErase (sid : String) : Sessions → Sessions
  | [] => []
  | (k, v) :: rest => if k = sid then absErase sid rest else (k, v) :: absErase sid rest

/-- The pruning loop of `writeActionBarSession` (actionbar.go lines
89–94): delete every record with `now - s.UpdatedAt > 600`. -/
def pruneSessions (now : Int) : Sessions → Sessions
  | [] => []
  | (k, v) :: rest =>
      if now - v.updatedAt > 600 then pruneSessions now rest
      else (k, v) :: pruneSessions now rest

/-- The closure passed to `modifyActionBar` by `writeActionBarSession`
(actionbar.go lines 87–102): prune expired records, then store the
fresh record for `sessionID` with `UpdatedAt = now` and zero-valued
permission fields. -/
def writeActionBarSessionFn (now : Int) (sessionID project st msg : String)
    (hwnd : Nat) (l : Sessions) : Sessions :=
  absInsert sessionID
    { project := project, state := st, message := msg, hwnd := hwnd,
      updatedAt := now, toolName := "", toolInput := "",
      permissionSuggestions := "" }
    (pruneSessions now l)

/-- `writeActionBarSession` up to (not including) the registry
transaction: `none` when the empty-id guard returns before
`modifyActionBar` is called (no lock, no file read, no file write),
otherwise the read-modify-write function handed to `modifyActionBar`. -/
def writeActionBarSessionOp (now : Int) (sessionID project st msg : String)
    (hwnd : Nat) : Option (Sessions → Sessions) :=
  if sessionID = "" then none
  else some (writeActionBarSessionFn now sessionID project st msg hwnd)

/-- Effect of one `writeActionBarSession` call (actionbar.go lines
83–103) on the registry document. -/
def writeActionBarSession (now : Int) (sessionID project st msg : String)
    (hwnd : Nat) (l : Sessions) : Sessions :=
  match writeActionBarSessionOp now sessionID project st msg hwnd with
  | none => l
  | some f => f l

/-- `removeActionBarSession` up to the registry transaction
(actionbar.go lines 106–113). -/
def removeActionBarSessionOp (sessionID : String) :
    Option (Sessions → Sessions) :=
  if sessionID = "" then none
  else some (absErase sessionID)

/-- Effect of one `removeActionBarSession` call on the registry
document: deletes the key if present, no-op if absent. -/
def removeActionBarSession (sessionID : String) (l : Sessions) : Sessions :=
  match removeActionBarSessionOp sessionID with
  | none => l
  | some f => f l

/-- The closure passed to `modifyActionBar` by
`updateActionBarPermission` (actionbar.go lines 121–132): if the session
is present, set its state to `"needs approval"`, store the tool details
and refresh `UpdatedAt`; if absent, leave the document unchanged. -/
def updateActionBarPermissionFn (now : Int) (sessionID toolName : String)
    (toolInput permSuggestions : RawMessage) (l : Sessions) : Sessions :=
  match absLookup sessionID l with
  | none => l
  | some s =>
      absInsert sessionID
        { s with state := "needs approval", toolName := toolName,
                 toolInput := toolInput,
                 permissionSuggestions := permSuggestions,
                 updatedAt := now } l

/-- `updateActionBarPermission` up to the registry transaction
(actionbar.go lines 117–133). -/
def updateActionBarPermissionOp (now : Int) (sessionID toolName : String)
    (toolInput permSuggestions : RawMessage) :
    Option (Sessions → Sessions) :=
  if sessionID = "" then none
  else some (updateActionBarPermissionFn now sessionID toolName toolInput permSuggestions)

/-- Effect of one `updateActionBarPermission` call on the registry
document. -/
def updateActionBarPermission (now : Int) (sessionID toolName : String)
    (toolInput permSuggestions : RawMessage) (l : Sessions) : Sessions :=
  match updateActionBarPermissionOp now sessionID toolName toolInput permSuggestions with
  | none => l
  | some f => f l

/-- The closure passed to `modifyActionBar` by
`clearActionBarPermission` (actionbar.go lines 141–152): if the session
is present, reset its state to `"working"`, clear the three permission
fields and refresh `UpdatedAt`; if absent, leave the document
unchanged. -/
def clearActionBarPermissionFn (now : Int) (sessionID : String)
    (l : Sessions) : Sessions :=
  match absLookup sessionID l with
  | none => l
  | some s =>
      absInsert sessionID
        { s with state := "working", toolName := "", toolInput := "",
                 permissionSuggestions := "", updatedAt := now } l

/-- `clearActionBarPermission` up to the registry transaction
(actionbar.go lines 137–153). -/
def clearActionBarPermissionOp (now : Int) (sessionID : String) :
    Option (Sessions → Sessions) :=
  if sessionID = "" then none
  else some (clearActionBarPermissionFn now sessionID)

/-- Effect of one `clearActionBarPermission` call on the registry
document. -/
def clearActionBarPermission (now : Int) (sessionID : String)
    (l : Sessions) : Sessions :=
  match clearActionBarPermissionOp now sessionID with
  | none => l
  | some f => f l

/-! ## Basic association-list lemmas -/

theorem absLookup_insert_self (sid : String) (v : ActionBarSession) :
    ∀ l : Sessions, absLookup sid (absInsert sid v l) = some v := by
  intro l
  induction l with
  | nil => simp [absInsert, absLookup]
  | cons x rest ih =>
      obtain ⟨k, w⟩ := x
      by_cases hk : k = sid
      · simp [absInsert, absLookup, hk]
      · simp [absInsert, absLookup, hk, ih]

theorem absLookup_insert_ne (sid sid' : String) (v : ActionBarSession)
    (h : sid' ≠ sid) :
    ∀ l : Sessions, absLookup sid' (absInsert sid v l) = absLookup sid' l := by
  intro l
  have hsym : sid ≠ sid' := Ne.symm h
  induction l with
  | nil => simp [absInsert, absLookup, hsym]
  | cons x rest ih =>
      obtain ⟨k, w⟩ := x
      by_cases hk : k = sid
      · subst hk
        have hks : ¬ k = sid' := hsym
        simp [absInsert, absLookup, hks]
      · by_cases hk' : k = sid'
        · simp [absInsert, absLookup, hk, hk', h]
        · simp [absInsert, absLookup, hk, hk', ih]

theorem absLookup_erase_self (sid : String) :
    ∀ l : Sessions, absLookup sid (absErase sid l) = none := by
  intro l
  induction l with
  | nil => simp [absErase, absLookup]
  | cons x rest ih =>
      obtain ⟨k, w⟩ := x
      by_cases hk : k = sid
      · simp [absErase, hk, ih]
      · simp [absErase, absLookup, hk, ih]

theorem absErase_idem (sid : String) :
    ∀ l : Sessions, absErase sid (absErase sid l) = absErase sid l := by
  intro l
  induction l with
  | nil => rfl
  | cons x rest ih =>
      obtain ⟨k, w⟩ := x
      by_cases hk : k = sid
      · simp [absErase, hk, ih]
      · simp [absErase, hk, ih]

theorem absLookup_eq_none_of_notMem (sid : String) :
    ∀ l : Sessions, sid ∉ l.map Prod.fst → absLookup sid l = none := by
  intro l
  induction l with
  | nil => intro _; rfl
  | cons x rest ih =>
      obtain ⟨k, w⟩ := x
      intro hmem
      have hk : ¬ k = sid := by
        intro hkk
        exact hmem (by simp [hkk])
      have hrest : sid ∉ rest.map Prod.fst := by
        intro hh
        exact hmem (by simp [hh])
      simp [absLookup, hk, ih hrest]

theorem absLookup_prune_of_none (now : Int) (sid : String) :
    ∀ l : Sessions, absLookup sid l = none →
      absLookup sid (pruneSessions now l) = none := by
  intro l
  induction l with
  | nil => intro _; rfl
  | cons x rest ih =>
      obtain ⟨k, w⟩ := x
      intro hnone
      by_cases hk : k = sid
      · simp [absLookup, hk] at hnone
      · simp only [absLookup, if_neg hk] at hnone
        by_cases hst : now - w.updatedAt > 600
        · simp [pruneSessions, hst, ih hnone]
        · simp [pruneSessions, hst, absLookup, hk, ih hnone]

theorem absLookup_prune_retained (now : Int) (sid : String)
    (r : ActionBarSession) (hfresh : now - r.updatedAt ≤ 600) :
    ∀ l : Sessions, absLookup sid l = some r →
      absLookup sid (pruneSessions now l) = some r := by
  intro l
  induction l with
  | nil => intro h; exact absurd h (by simp [absLookup])
  | cons x rest ih =>
      obtain ⟨k, w⟩ := x
      intro hl
      by_cases hk : k = sid
      · simp only [absLookup, if_pos hk] at hl
        have hw : w = r := by injection hl
        subst hw
        have hst : ¬ now - w.updatedAt > 600 := not_lt.mpr hfresh
        simp [pruneSessions, hst, absLookup, hk]
      · simp only [absLookup, if_neg hk] at hl
        by_cases hst : now - w.updatedAt > 600
        · simp [pruneSessions, hst, ih hl]
        · simp [pruneSessions, hst, absLookup, hk, ih hl]

theorem absLookup_prune_stale (now : Int) (sid : String)
    (r : ActionBarSession) (hstale : now - r.updatedAt > 600) :
    ∀ l : Sessions, NodupKeys l → absLookup sid l = some r →
      absLookup sid (pruneSessions now l) = none := by
  intro l
  induction l with
  | nil => intro _ h; exact absurd h (by simp [absLookup])
  | cons x rest ih =>
      obtain ⟨k, w⟩ := x
      intro hnd hl
      have hnd' : k ∉ rest.map Prod.fst ∧ NodupKeys rest := by
        simpa [NodupKeys, List.nodup_cons] using hnd
      by_cases hk : k = sid
      · simp only [absLookup, if_pos hk] at hl
        have hw : w = r := by injection hl
        subst hw
        have hrest : absLookup sid rest = none :=
          absLookup_eq_none_of_notMem sid rest (hk ▸ hnd'.1)
        simp [pruneSessions, hstale, absLookup_prune_of_none now sid rest hrest]
      · simp only [absLookup, if_neg hk] at hl
        by_cases hst : now - w.updatedAt > 600
        · simp [pruneSessions, hst, ih hnd'.2 hl]
        · simp [pruneSessions, hst, absLookup, hk, ih hnd'.2 hl]

/-! ## Membership lemmas -/

theorem mem_of_absLookup (sid : String) (r : ActionBarSession) :
    ∀ l : Sessions, absLookup sid l = some r → (sid, r) ∈ l := by
  intro l
  induction l with
  | nil => intro h; simp [absLookup] at h
  | cons x rest ih =>
      obtain ⟨k, w⟩ := x
      intro h
      by_cases hk : k = sid
      · subst hk
        simp only [absLookup, if_pos rfl] at h
        have hw : w = r := by injection h
        subst hw
        exact List.mem_cons_self _ _
      · simp only [absLookup, if_neg hk] at h
        exact List.mem_cons_of_mem _ (ih h)

theorem mem_pruneSessions (now : Int) (p : String × ActionBarSession) :
    ∀ l : Sessions, p ∈ pruneSessions now l → p ∈ l := by
  intro l
  induction l with
  | nil => intro h; exact h
  | cons x rest ih =>
      obtain ⟨k, w⟩ := x
      intro h
      by_cases hst : now - w.updatedAt > 600
      · simp only [pruneSessions, if_pos hst] at h
        exact List.mem_cons_of_mem _ (ih h)
      · simp only [pruneSessions, if_neg hst] at h
        rcases List.mem_cons.mp h with h1 | h2
        · exact h1 ▸ List.mem_cons_self _ _
        · exact List.mem_cons_of_mem _ (ih h2)

theorem mem_absErase (sid : String) (p : String × ActionBarSession) :
    ∀ l : Sessions, p ∈ absErase sid l → p ∈ l := by
  intro l
  induction l with
  | nil => intro h; exact h
  | cons x rest ih =>
      obtain ⟨k, w⟩ := x
      intro h
      by_cases hk : k = sid
      · simp only [absErase, if_pos hk] at h
        exact List.mem_cons_of_mem _ (ih h)
      · simp only [absErase, if_neg hk] at h
        rcases List.mem_cons.mp h with h1 | h2
        · exact h1 ▸ List.mem_cons_self _ _
        · exact List.mem_cons_of_mem _ (ih h2)

theorem mem_absInsert (sid : String) (v : ActionBarSession)
    (p : String × ActionBarSession) :
    ∀ l : Sessions, p ∈ absInsert sid v l → p = (sid, v) ∨ p ∈ l := by
  intro l
  induction l with
  | nil =>
      intro h
      simp only [absInsert] at h
      exact Or.inl (by simpa using h)
  | cons x rest ih =>
      obtain ⟨k, w⟩ := x
      intro h
      by_cases hk : k = sid
      · simp only [absInsert, if_pos hk] at h
        rcases List.mem_cons.mp h with h1 | h2
        · subst hk
          exact Or.inl h1
        · exact Or.inr (List.mem_cons_of_mem _ h2)
      · simp only [absInsert, if_neg hk] at h
        rcases List.mem_cons.mp h with h1 | h2
        · exact Or.inr (h1 ▸ List.mem_cons_self _ _)
        · rcases ih h2 with h3 | h4
          · exact Or.inl h3
          · exact Or.inr (List.mem_cons_of_mem _ h4)

/-! ## Mutator unfolding lemmas (nonempty session id) -/

theorem writeActionBarSession_eq (now : Int)
    (sessionID project st msg : String) (hwnd : Nat) (l : Sessions)
    (hsid : sessionID ≠ "") :
    writeActionBarSession now sessionID project st msg hwnd l
      = writeActionBarSessionFn now sessionID project st msg hwnd l := by
  simp [writeActionBarSession, writeActionBarSessionOp, hsid]

theorem removeActionBarSession_eq (sessionID : String) (l : Sessions)
    (hsid : sessionID ≠ "") :
    removeActionBarSession sessionID l = absErase sessionID l := by
  simp [removeActionBarSession, removeActionBarSessionOp, hsid]

theorem updateActionBarPermission_eq (now : Int) (sessionID toolName : String)
    (toolInput permSuggestions : RawMessage) (l : Sessions)
    (hsid : sessionID ≠ "") :
    updateActionBarPermission now sessionID toolName toolInput permSuggestions l
      = updateActionBarPermissionFn now sessionID toolName toolInput permSuggestions l := by
  simp [updateActionBarPermission, updateActionBarPermissionOp, hsid]

theorem clearActionBarPermission_eq (now : Int) (sessionID : String)
    (l : Sessions) (hsid : sessionID ≠ "") :
    clearActionBarPermission now sessionID l
      = clearActionBarPermissionFn now sessionID l := by
  simp [clearActionBarPermission, clearActionBarPermissionOp, hsid]

/-! ## The permission-fields invariant (C4) -/

/-- Every record whose state is not `"needs approval"` carries empty
`tool_name`, `tool_input` and `permission_suggestions` fields. -/
def permClean (l : Sessions) : Prop :=
  ∀ p : String × ActionBarSession, p ∈ l → p.2.state ≠ "needs approval" →
    p.2.toolName = "" ∧ p.2.toolInput = "" ∧ p.2.permissionSuggestions = ""

/-- Registry documents reachable from the empty document through the
four mutators of `actionbar.go`. -/
inductive Reachable : Sessions → Prop where
  | empty : Reachable []
  | write (now : Int) (sessionID project st msg : String) (hwnd : Nat)
      {l : Sessions} : Reachable l →
      Reachable (writeActionBarSession now sessionID project st msg hwnd l)
  | remove (sessionID : String) {l : Sessions} : Reachable l →
      Reachable (removeActionBarSession sessionID l)
  | update (now : Int) (sessionID toolName : String)
      (toolInput permSuggestions : RawMessage) {l : Sessions} : Reachable l →
      Reachable (updateActionBarPermission now sessionID toolName toolInput permSuggestions l)
  | clear (now : Int) (sessionID : String) {l : Sessions} : Reachable l →
      Reachable (clearActionBarPermission now sessionID l)

theorem permClean_write (now : Int) (sessionID project st msg : String)
    (hwnd : Nat) {l : Sessions} (h : permClean l) :
    permClean (writeActionBarSession now sessionID project st msg hwnd l) := by
  by_cases hsid : sessionID = ""
  · simpa [writeActionBarSession, writeActionBarSessionOp, hsid] using h
  · rw [writeActionBarSession_eq now sessionID project st msg hwnd l hsid]
    unfold writeActionBarSessionFn
    intro p hp hps
    rcases mem_absInsert _ _ _ _ hp with h1 | h2
    · subst h1
      exact ⟨rfl, rfl, rfl⟩
    · exact h p (mem_pruneSessions now p l h2) hps

theorem permClean_remove (sessionID : String) {l : Sessions}
    (h : permClean l) :
    permClean (removeActionBarSession sessionID l) := by
  by_cases hsid : sessionID = ""
  · simpa [removeActionBarSession, removeActionBarSessionOp, hsid] using h
  · rw [removeActionBarSession_eq sessionID l hsid]
    intro p hp hps
    exact h p (mem_absErase sessionID p l hp) hps

theorem permClean_update (now : Int) (sessionID toolName : String)
    (toolInput permSuggestions : RawMessage) {l : Sessions}
    (h : permClean l) :
    permClean (updateActionBarPermission now sessionID toolName toolInput permSuggestions l) := by
  by_cases hsid : sessionID = ""
  · simpa [updateActionBarPermission, updateActionBarPermissionOp, hsid] using h
  · rw [updateActionBarPermission_eq now sessionID toolName toolInput permSuggestions l hsid]
    unfold updateActionBarPermissionFn
    cases hlk : absLookup sessionID l with
    | none => exact h
    | some s =>
        intro p hp hps
        rcases mem_absInsert _ _ _ _ hp with h1 | h2
        · subst h1
          exact absurd rfl hps
        · exact h p h2 hps

theorem permClean_clear (now : Int) (sessionID : String) {l : Sessions}
    (h : permClean l) :
    permClean (clearActionBarPermission now sessionID l) := by
  by_cases hsid : sessionID = ""
  · simpa [clearActionBarPermission, clearActionBarPermissionOp, hsid] using h
  · rw [clearActionBarPermission_eq now sessionID l hsid]
    unfold clearActionBarPermissionFn
    cases hlk : absLookup sessionID l with
    | none => exact h
    | some s =>
        intro p hp hps
        rcases mem_absInsert _ _ _ _ hp with h1 | h2
        · subst h1
          exact ⟨rfl, rfl, rfl⟩
        · exact h p h2 hps

theorem permClean_reachable {l : Sessions} (h : Reachable l) : permClean l := by
  induction h with
  | empty => intro p hp _; exact absurd hp (List.not_mem_nil p)
  | write now sessionID project st msg hwnd _ ih =>
      exact permClean_write now sessionID project st msg hwnd ih
  | remove sessionID _ ih => exact permClean_remove sessionID ih
  | update now sessionID toolName toolInput permSuggestions _ ih =>
      exact permClean_update now sessionID toolName toolInput permSuggestions ih
  | clear now sessionID _ ih => exact permClean_clear now sessionID ih

/-! ## Registry claim theorems -/

/-- C4: in every registry state reachable through the four mutators,
every session record whose state is not `"needs approval"` has empty
`tool_name`, `tool_input` and `permission_suggestions` fields. -/
theorem reachable_nonpending_fields_empty {l : Sessions} (h : Reachable l)
    (sid : String) (r : ActionBarSession)
    (hl : absLookup sid l = some r) (hs : r.state ≠ "needs approval") :
    r.toolName = "" ∧ r.toolInput = "" ∧ r.permissionSuggestions = "" :=
  permClean_reachable h (sid, r) (mem_of_absLookup sid r l hl) hs

/-- Witness for `reachable_nonpending_fields_empty`: a registry built by
upsert, then `set_permission_pending`, then `clear_permission_pending`
for session `"s1"`; the resulting working record has empty permission
fields. -/
theorem reachable_nonpending_fields_empty_witness :
    (⟨"p", "working", "m", 5, 102, "", "", ""⟩ : ActionBarSession).toolName = ""
  ∧ (⟨"p", "working", "m", 5, 102, "", "", ""⟩ : ActionBarSession).toolInput = ""
  ∧ (⟨"p", "working", "m", 5, 102, "", "", ""⟩ : ActionBarSession).permissionSuggestions = "" :=
  reachable_nonpending_fields_empty
    (Reachable.clear 102 "s1"
      (Reachable.update 101 "s1" "Bash" "input-json" "sugg-json"
        (Reachable.write 100 "s1" "p" "working" "m" 5 Reachable.empty)))
    "s1" ⟨"p", "working", "m", 5, 102, "", "", ""⟩ (by decide) (by decide)

/-- C5: an upsert (with a real, nonempty session id) prunes exactly the
records whose `updated_at` is more than 600 seconds old: a record whose
age exceeds 600s never survives the call (for a non-target session id
the key is gone entirely; the target key is rebound to the fresh
record), while a record aged at most 600s on a non-target session id is
retained unchanged. -/
theorem upsert_prunes_expired_exactly (now : Int)
    (sessionID project st msg : String) (hwnd : Nat) (l : Sessions)
    (hsid : sessionID ≠ "") (hnd : NodupKeys l)
    (sid : String) (r : ActionBarSession) (hl : absLookup sid l = some r) :
    (now - r.updatedAt > 600 →
        absLookup sid (writeActionBarSession now sessionID project st msg hwnd l) ≠ some r
      ∧ (sid ≠ sessionID →
          absLookup sid (writeActionBarSession now sessionID project st msg hwnd l) = none))
  ∧ (now - r.updatedAt ≤ 600 → sid ≠ sessionID →
      absLookup sid (writeActionBarSession now sessionID project st msg hwnd l) = some r) := by
  have hw : writeActionBarSession now sessionID project st msg hwnd l
      = writeActionBarSessionFn now sessionID project st msg hwnd l := by
    simp [writeActionBarSession, writeActionBarSessionOp, hsid]
  constructor
  · intro hstale
    constructor
    · by_cases hsid' : sid = sessionID
      · subst hsid'
        rw [hw]
        unfold writeActionBarSessionFn
        rw [absLookup_insert_self]
        intro heq
        have hrec := Option.some.inj heq
        have hupd : now = r.updatedAt := congrArg ActionBarSession.updatedAt hrec
        omega
      · rw [hw]
        unfold writeActionBarSessionFn
        rw [absLookup_insert_ne _ _ _ hsid',
            absLookup_prune_stale now sid r hstale l hnd hl]
        exact fun heq => Option.noConfusion heq
    · intro hsid'
      rw [hw]
      unfold writeActionBarSessionFn
      rw [absLookup_insert_ne _ _ _ hsid',
          absLookup_prune_stale now sid r hstale l hnd hl]
  · intro hfresh hsid'
    rw [hw]
    unfold writeActionBarSessionFn
    rw [absLookup_insert_ne _ _ _ hsid',
        absLookup_prune_retained now sid r hfresh l hl]

/-- Witness for `upsert_prunes_expired_exactly`: an upsert to session
`"b"` at `now = 1000` removes the record of `"old"` (age 601s) and
theorem-instantiates the retention side with a 599s-old record. -/
theorem upsert_prunes_expired_exactly_witness :
    absLookup "old"
      (writeActionBarSession 1000 "b" "p" "working" "" 0
        [("old", ⟨"p", "done", "", 0, 399, "", "", ""⟩),
         ("keep", ⟨"q", "ready", "", 0, 401, "", "", ""⟩)]) = none
  ∧ absLookup "keep"
      (writeActionBarSession 1000 "b" "p" "working" "" 0
        [("old", ⟨"p", "done", "", 0, 399, "", "", ""⟩),
         ("keep", ⟨"q", "ready", "", 0, 401, "", "", ""⟩)])
      = some ⟨"q", "ready", "", 0, 401, "", "", ""⟩ :=
  ⟨((upsert_prunes_expired_exactly 1000 "b" "p" "working" "" 0
      [("old", ⟨"p", "done", "", 0, 399, "", "", ""⟩),
       ("keep", ⟨"q", "ready", "", 0, 401, "", "", ""⟩)]
      (by decide) (by decide) "old" ⟨"p", "done", "", 0, 399, "", "", ""⟩
      (by decide)).1 (by decide)).2 (by decide),
   (upsert_prunes_expired_exactly 1000 "b" "p" "working" "" 0
      [("old", ⟨"p", "done", "", 0, 399, "", "", ""⟩),
       ("keep", ⟨"q", "ready", "", 0, 401, "", "", ""⟩)]
      (by decide) (by decide) "keep" ⟨"q", "ready", "", 0, 401, "", "", ""⟩
      (by decide)).2 (by decide) (by decide)⟩

/-- C6: after an upsert with a nonempty session id, the registry maps
the target id to exactly the record built from the call's arguments
with `updated_at = now` and empty permission fields, and every other
record aged at most 600 seconds is left unchanged. -/
theorem upsert_sets_target_and_preserves_fresh (now : Int)
    (sessionID project st msg : String) (hwnd : Nat) (l : Sessions)
    (hsid : sessionID ≠ "") :
    absLookup sessionID (writeActionBarSession now sessionID project st msg hwnd l)
      = some { project := project, state := st, message := msg, hwnd := hwnd,
               updatedAt := now, toolName := "", toolInput := "",
               permissionSuggestions := "" }
  ∧ ∀ sid : String, sid ≠ sessionID → ∀ r : ActionBarSession,
      absLookup sid l = some r → now - r.updatedAt ≤ 600 →
      absLookup sid (writeActionBarSession now sessionID project st msg hwnd l) = some r := by
  have hw : writeActionBarSession now sessionID project st msg hwnd l
      = writeActionBarSessionFn now sessionID project st msg hwnd l := by
    simp [writeActionBarSession, writeActionBarSessionOp, hsid]
  constructor
  · rw [hw]
    unfold writeActionBarSessionFn
    exact absLookup_insert_self _ _ _
  · intro sid hsid' r hl hfresh
    rw [hw]
    unfold writeActionBarSessionFn
    rw [absLookup_insert_ne _ _ _ hsid',
        absLookup_prune_retained now sid r hfresh l hl]

/-- Witness for `upsert_sets_target_and_preserves_fresh` at a concrete
registry: the target receives the fresh record and an untouched
fresh-enough neighbour survives unchanged. -/
theorem upsert_sets_target_and_preserves_fresh_witness :
    absLookup "a"
      (writeActionBarSession 1000 "a" "proj" "ready" "hi" 7
        [("bystander", ⟨"q", "done", "", 0, 900, "", "", ""⟩)])
      = some ⟨"proj", "ready", "hi", 7, 1000, "", "", ""⟩
  ∧ absLookup "bystander"
      (writeActionBarSession 1000 "a" "proj" "ready" "hi" 7
        [("bystander", ⟨"q", "done", "", 0, 900, "", "", ""⟩)])
      = some ⟨"q", "done", "", 0, 900, "", "", ""⟩ :=
  ⟨(upsert_sets_target_and_preserves_fresh 1000 "a" "proj" "ready" "hi" 7
      [("bystander", ⟨"q", "done", "", 0, 900, "", "", ""⟩)] (by decide)).1,
   (upsert_sets_target_and_preserves_fresh 1000 "a" "proj" "ready" "hi" 7
      [("bystander", ⟨"q", "done", "", 0, 900, "", "", ""⟩)] (by decide)).2
      "bystander" (by decide) ⟨"q", "done", "", 0, 900, "", "", ""⟩
      (by decide) (by decide)⟩

/-- C7: `updateActionBarPermission` and `clearActionBarPermission` on a
session id that has no record in the registry leave the registry
document unchanged — a permission event for an unknown or expired
session is dropped, not an error. -/
theorem permission_update_unknown_session_noop (now : Int)
    (sessionID toolName : String) (toolInput permSuggestions : RawMessage)
    (l : Sessions) (h : absLookup sessionID l = none) :
    updateActionBarPermission now sessionID toolName toolInput permSuggestions l = l
  ∧ clearActionBarPermission now sessionID l = l := by
  by_cases hsid : sessionID = ""
  · constructor
    · simp [updateActionBarPermission, updateActionBarPermissionOp, hsid]
    · simp [clearActionBarPermission, clearActionBarPermissionOp, hsid]
  · constructor
    · simp [updateActionBarPermission, updateActionBarPermissionOp, hsid,
            updateActionBarPermissionFn, h]
    · simp [clearActionBarPermission, clearActionBarPermissionOp, hsid,
            clearActionBarPermissionFn, h]

/-- Witness for `permission_update_unknown_session_noop`: a permission
update and a permission clear addressed to the absent session `"ghost"`
leave a concrete one-session registry untouched. -/
theorem permission_update_unknown_session_noop_witness :
    updateActionBarPermission 1000 "ghost" "Bash" "payload" "sugg"
      [("a", ⟨"p", "working", "", 0, 999, "", "", ""⟩)]
      = [("a", ⟨"p", "working", "", 0, 999, "", "", ""⟩)]
  ∧ clearActionBarPermission 1000 "ghost"
      [("a", ⟨"p", "working", "", 0, 999, "", "", ""⟩)]
      = [("a", ⟨"p", "working", "", 0, 999, "", "", ""⟩)] :=
  permission_update_unknown_session_noop 1000 "ghost" "Bash" "payload" "sugg"
    [("a", ⟨"p", "working", "", 0, 999, "", "", ""⟩)] (by decide)

/-- C9: `removeActionBarSession` is idempotent on every session id and
registry state — the second call is a no-op (Go's `delete` on an absent
key never errors) — and a removal with a nonempty id really deletes the
key. -/
theorem remove_idempotent (sessionID : String) (l : Sessions) :
    removeActionBarSession sessionID (removeActionBarSession sessionID l)
      = removeActionBarSession sessionID l
  ∧ (sessionID ≠ "" →
      absLookup sessionID (removeActionBarSession sessionID l) = none) := by
  by_cases hsid : sessionID = ""
  · constructor
    · simp [removeActionBarSession, removeActionBarSessionOp, hsid]
    · intro h; exact absurd hsid h
  · constructor
    · simp [removeActionBarSession, removeActionBarSessionOp, hsid,
            absErase_idem]
    · intro _
      simp [removeActionBarSession, removeActionBarSessionOp, hsid,
            absLookup_erase_self]

/-- Witness for `remove_idempotent` at a concrete registry: removing
session `"a"` twice equals removing it once, and the key is gone. -/
theorem remove_idempotent_witness :
    removeActionBarSession "a"
        (removeActionBarSession "a"
          [("a", ⟨"p", "done", "", 0, 999, "", "", ""⟩),
           ("b", ⟨"q", "ready", "", 0, 999, "", "", ""⟩)])
      = removeActionBarSession "a"
          [("a", ⟨"p", "done", "", 0, 999, "", "", ""⟩),
           ("b", ⟨"q", "ready", "", 0, 999, "", "", ""⟩)]
  ∧ absLookup "a"
      (removeActionBarSession "a"
        [("a", ⟨"p", "done", "", 0, 999, "", "", ""⟩),
         ("b", ⟨"q", "ready", "", 0, 999, "", "", ""⟩)]) = none :=
  ⟨(remove_idempotent "a"
      [("a", ⟨"p", "done", "", 0, 999, "", "", ""⟩),
       ("b", ⟨"q", "ready", "", 0, 999, "", "", ""⟩)]).1,
   (remove_idempotent "a"
      [("a", ⟨"p", "done", "", 0, 999, "", "", ""⟩),
       ("b", ⟨"q", "ready", "", 0, 999, "", "", ""⟩)]).2 (by decide)⟩

/-- C10: every registry mutator called with the empty session id hits
the `sessionID == ""` guard and returns before `modifyActionBar` runs:
no registry transaction is opened (`...Op = none`, i.e. the lock file is
never opened, the registry file never read or written) and the registry
document is unchanged. -/
theorem empty_session_id_mutators_noop (now : Int)
    (project st msg toolName : String) (toolInput permSuggestions : RawMessage)
    (hwnd : Nat) (l : Sessions) :
    writeActionBarSessionOp now "" project st msg hwnd = none
  ∧ removeActionBarSessionOp "" = none
  ∧ updateActionBarPermissionOp now "" toolName toolInput permSuggestions = none
  ∧ clearActionBarPermissionOp now "" = none
  ∧ writeActionBarSession now "" project st msg hwnd l = l
  ∧ removeActionBarSession "" l = l
  ∧ updateActionBarPermission now "" toolName toolInput permSuggestions l = l
  ∧ clearActionBarPermission now "" l = l := by
  refine ⟨rfl, rfl, rfl, rfl, rfl, rfl, rfl, rfl⟩

/-! ## UI reader (`helper/actionbar.go`)

The helper's windows build reads `.actionbar.json` plus the per-session
heartbeat files and turns them into render slots.  The display-only
`ToolDesc`/`ToolDetail` strings (extracted from the `tool_input` JSON by
`abToolInfo` purely for on-screen text) are not part of the model; no
claim mentions them. -/

/-- A render slot (`abSlot` in `helper/actionbar.go`, minus the two
display-only text fields). -/
structure abSlot where
  sessionID : String
  project : String
  state : String
  message : String
  hwnd : Nat
  hasPending : Bool
  toolName : String
deriving Repr, DecidableEq

/-- Heartbeat freshness check of `abDoRead` (helper/actionbar.go lines
1022–1026): `os.Stat` error (missing file) means not fresh, otherwise
fresh iff the modification time is less than 3 seconds old.  `hb` is
the heartbeat file's modification time, `none` when the file is
missing. -/
def hbFresh (now : Int) (hb : Option Int) : Bool :=
  match hb with
  | none => false
  | some mtime => decide (now - mtime < 3)

/-- The per-session classification step of `abDoRead`
(helper/actionbar.go lines 1010–1035): build the slot from the record;
for a `"needs approval"` record consult the heartbeat — fresh with a
tool name marks the slot pending, not fresh overrides the rendered
state to `"working"`. -/
def abClassify (now : Int) (id : String) (s : ActionBarSession)
    (hb : Option Int) : abSlot :=
  let slot : abSlot :=
    { sessionID := id, project := s.project, state := s.state,
      message := s.message, hwnd := s.hwnd, hasPending := false,
      toolName := "" }
  if s.state = "needs approval" then
    let fresh := hbFresh now hb
    if fresh && (s.toolName != "") then
      { slot with hasPending := true, toolName := s.toolName }
    else if !fresh then
      { slot with state := "working" }
    else slot
  else slot

/-- Insertion step of the id-sort in `abDoRead` (the source sorts the
collected items with `sort.Slice` on `items[i].id < items[j].id`). -/
def absInsertSorted (p : String × ActionBarSession) : Sessions → Sessions
  | [] => [p]
  | q :: rest => if p.1 < q.1 then p :: q :: rest else q :: absInsertSorted p rest

/-- Sort the collected registry items by session id. -/
def absSortByKey : Sessions → Sessions
  | [] => []
  | p :: rest => absInsertSorted p (absSortByKey rest)

/-- `abMaxSlots` (helper/actionbar.go line 866). -/
def abMaxSlots : Nat := 7

/-- `abDoRead` (helper/actionbar.go lines 978–1041) on an already
deserialized document: drop records older than 600s, sort by session
id, keep at most `abMaxSlots` items, and classify each against its
heartbeat file (`hbMtime id` is the mtime of `.actionbar-hb-<id>`,
`none` if the file is missing). -/
def abDoRead (now : Int) (sessions : Sessions)
    (hbMtime : String → Option Int) : List abSlot :=
  ((absSortByKey (sessions.filter
      (fun p => !(decide (now - p.2.updatedAt > 600))))).take abMaxSlots).map
    (fun p => abClassify now p.1 p.2 (hbMtime p.1))

/-- `abNeedsAttention` (helper/actionbar.go lines 899–901): gold
attention ring for `"needs approval"` and `"has question"`. -/
def abNeedsAttention (st : String) : Bool :=
  (st == "needs approval") || (st == "has question")

/-- `abStateIcon` (helper/actionbar.go lines 887–896).  (Defined in the
source but not called from the paint path of this build.) -/
def abStateIcon (st : String) : String :=
  if st == "done" then "complete"
  else if st == "needs approval" || st == "has question" then "permission"
  else "idle"

/-- The icon selection inlined in the slot paint loop
(helper/actionbar.go lines 1536–1540): the `"working"` state shows the
`"complete"` icon, every other state string the `"idle"` icon. -/
def abPaintIconKey (st : String) : String :=
  if st == "working" then "complete" else "idle"

/-- The status line of the options panel (helper/actionbar.go line
1754): displays the raw state string. -/
def abOptionsStatusText (st : String) : String :=
  "Status: " ++ st

/-! ## UI claim theorems -/

/-- C3: for a registry record in state `"needs approval"`, a missing or
non-fresh heartbeat (modification time not within the last 3 seconds)
makes the UI reader classify the session's slot as `"working"` instead
of `"needs approval"`. -/
theorem stale_heartbeat_renders_working (now : Int) (id : String)
    (s : ActionBarSession) (hb : Option Int)
    (hstate : s.state = "needs approval")
    (hstale : hbFresh now hb = false) :
    (abClassify now id s hb).state = "working" := by
  unfold abClassify
  simp [hstate, hstale]

/-- Witness for `stale_heartbeat_renders_working`: a heartbeat whose
modification time is 5 seconds old is not fresh, and the pending record
is rendered as `"working"`. -/
theorem stale_heartbeat_renders_working_witness :
    hbFresh 100 (some 95) = false
  ∧ (abClassify 100 "s1"
      ⟨"p", "needs approval", "", 0, 99, "Bash", "input-json", ""⟩
      (some 95)).state = "working" :=
  ⟨by decide,
   stale_heartbeat_renders_working 100 "s1"
     ⟨"p", "needs approval", "", 0, 99, "Bash", "input-json", ""⟩
     (some 95) (by decide) (by decide)⟩

/-- C8 counterexample: the claim that an unrecognized state string is
treated exactly as `"working"` fails at the concrete state
`"mystery"`: the reader keeps the raw string in the slot, and the paint
routine draws the `"idle"` icon and status text for it while a
`"working"` slot gets the `"complete"` icon. -/
theorem unknown_state_as_working_counterexample :
    (abClassify 100 "s1" ⟨"p", "mystery", "", 0, 99, "", "", ""⟩ none).state ≠ "working"
  ∧ abPaintIconKey "mystery" ≠ abPaintIconKey "working"
  ∧ abOptionsStatusText "mystery" ≠ abOptionsStatusText "working" := by
  refine ⟨by decide, by decide, by decide⟩

/-- C8 (amended): an unrecognized state string is not normalized: the
reader's slot keeps the raw string, and rendering treats it like an
idle/`"ready"` session — no attention ring and the `"idle"` icon —
which is not the rendering of `"working"` (whose icon is
`"complete"`). -/
theorem unknown_state_rendering (st : String)
    (hn : st ∉ ["ready", "working", "done", "needs approval", "has question"]) :
    (∀ (now : Int) (id : String) (s : ActionBarSession) (hb : Option Int),
        s.state = st → (abClassify now id s hb).state = st)
  ∧ abNeedsAttention st = false
  ∧ abPaintIconKey st = "idle"
  ∧ abPaintIconKey st ≠ abPaintIconKey "working" := by
  simp only [List.mem_cons, List.not_mem_nil, or_false, not_or] at hn
  obtain ⟨h1, h2, h3, h4, h5⟩ := hn
  refine ⟨?_, ?_, ?_, ?_⟩
  · intro now id s hb hs
    unfold abClassify
    simp [hs, h4]
  · simp [abNeedsAttention, h4, h5]
  · simp [abPaintIconKey, h2]
  · simp [abPaintIconKey, h2]

/-- Witness for `unknown_state_rendering` at the concrete unrecognized
state `"mystery"`. -/
theorem unknown_state_rendering_witness :
    (abClassify 100 "s1" ⟨"p", "mystery", "msg", 3, 99, "", "", ""⟩ none).state = "mystery"
  ∧ abNeedsAttention "mystery" = false
  ∧ abPaintIconKey "mystery" = "idle"
  ∧ abPaintIconKey "mystery" ≠ abPaintIconKey "working" :=
  ⟨(unknown_state_rendering "mystery" (by decide)).1 100 "s1"
     ⟨"p", "mystery", "msg", 3, 99, "", "", ""⟩ none rfl,
   (unknown_state_rendering "mystery" (by decide)).2.1,
   (unknown_state_rendering "mystery" (by decide)).2.2.1,
   (unknown_state_rendering "mystery" (by decide)).2.2.2⟩

/-! ## Permission rendezvous (`handlePermissionRequest`, main package)

The hook process embedding covers the response/heartbeat files and the
registry as one world state.  One poll tick = one iteration of the
500ms loop; the 5-minute deadline makes 600 ticks.  Each tick carries
the wall-clock second and what a read of `.actionbar-rsp-<id>.json`
returns at that instant (absent / present but not valid JSON / valid).

Fidelity note on cleanup: `handlePermissionRequest` registers
`defer func() { os.Remove(heartbeatPath); clearActionBarPermission(...) }`
but every exit path of the function calls `os.Exit(0)`, and Go's
`os.Exit` terminates the process immediately *without running deferred
functions*.  The deferred cleanup therefore never executes and is
accordingly absent from this model: on the response path only the
explicit `os.Remove(rspPath)` and `clearActionBarPermission` calls of
the loop body run, and on the timeout path nothing runs at all. -/

/-- Result of one `os.ReadFile` + `json.Unmarshal` attempt on the
response file. -/
inductive RspRead where
  | absent
  | invalid
  | valid (behavior : String) (applySuggestions : Bool)
deriving Repr, DecidableEq

/-- The `hookDecision` printed to stdout (main package):
`updatedPermissions` is the request's `permission_suggestions` payload
when the response asks to apply them, `""` (omitted) otherwise. -/
structure hookDecision where
  behavior : String
  updatedPermissions : RawMessage
deriving Repr, DecidableEq

/-- The files and registry visible to the waiting hook process. -/
structure RdvWorld where
  sessions : Sessions
  rspPresent : Bool
  hbPresent : Bool
  hbMtime : Int
  rspLoopRemovals : Nat
deriving Repr, DecidableEq

/-- The poll loop of `handlePermissionRequest` (main package, lines
83–125): each tick sleeps, touches the heartbeat (`os.Chtimes`), and
tries the response file; a valid response is removed, the registry
permission state cleared, and the decision returned (then `os.Exit(0)`
— the deferred heartbeat removal does not run); an exhausted tick list
is the 5-minute deadline (`os.Exit(0)` with no decision — no cleanup
runs). `rspLoopRemovals` counts the loop's `os.Remove(rspPath)`
calls. -/
def permissionPollLoop (sessionID : String)
    (permissionSuggestions : RawMessage) :
    List (Int × RspRead) → RdvWorld → RdvWorld × Option hookDecision
  | [], w => (w, none)
  | (t, obs) :: rest, w =>
      let w1 := { w with hbMtime := t }
      match obs with
      | RspRead.absent => permissionPollLoop sessionID permissionSuggestions rest w1
      | RspRead.invalid => permissionPollLoop sessionID permissionSuggestions rest w1
      | RspRead.valid behavior applySuggestions =>
          let w2 := { w1 with
            rspPresent := false,
            rspLoopRemovals := w1.rspLoopRemovals + 1,
            sessions := clearActionBarPermission t sessionID w1.sessions }
          (w2, some { behavior := behavior,
                      updatedPermissions :=
                        if applySuggestions && (permissionSuggestions != "")
                        then permissionSuggestions else "" })

/-- `handlePermissionRequest` (main package, lines 54–126) given the
already-parsed payload: exit at once on an empty session id; otherwise
remove any stale response file, mark the session `"needs approval"`
with the tool details, create the heartbeat file, and run the poll
loop. -/
def handlePermissionRequest (t0 : Int) (sessionID toolName : String)
    (toolInput permissionSuggestions : RawMessage)
    (ticks : List (Int × RspRead)) (w : RdvWorld) :
    RdvWorld × Option hookDecision :=
  if sessionID = "" then (w, none)
  else
    let w1 := { w with rspPresent := false }
    let sessionsUpd :=
      updateActionBarPermission t0 sessionID toolName toolInput
        permissionSuggestions w1.sessions
    let w2 := { w1 with sessions := sessionsUpd }
    let w3 := { w2 with hbPresent := true, hbMtime := t0 }
    permissionPollLoop sessionID permissionSuggestions ticks w3

/-! ## Rendezvous claim theorems -/

/-- Registry before the permission request of the C1/C2 runs: session
`"s1"` is working. -/
def rdvRegistry : Sessions :=
  [("s1", ⟨"proj", "working", "", 7, 1000, "", "", ""⟩)]

/-- The C1 run: a valid `allow`/apply-suggestions response is observed
on the second poll tick. -/
def c1Run : RdvWorld × Option hookDecision :=
  handlePermissionRequest 1000 "s1" "Bash" "input-json" "sugg-json"
    [(1001, RspRead.absent), (1002, RspRead.valid "allow" true)]
    { sessions := rdvRegistry, rspPresent := false, hbPresent := false,
      hbMtime := 0, rspLoopRemovals := 0 }

/-- C1 (behavior at the failing input): when the waiting hook process
observes a valid response before the deadline it consumes and deletes
the response file exactly once, clears the session's pending permission
fields (state back to `"working"`), and emits the decision with the
response's behavior and the suggestions payload — but it does NOT
remove the heartbeat file: the deferred removal is skipped because
`os.Exit(0)` bypasses deferred functions, so `hbPresent` is still
`true` where the claim requires the heartbeat to be gone. -/
theorem response_found_run_leaves_heartbeat :
    c1Run.2 = some { behavior := "allow", updatedPermissions := "sugg-json" }
  ∧ c1Run.1.rspPresent = false
  ∧ c1Run.1.rspLoopRemovals = 1
  ∧ absLookup "s1" c1Run.1.sessions
      = some ⟨"proj", "working", "", 7, 1002, "", "", ""⟩
  ∧ c1Run.1.hbPresent = true := by
  refine ⟨by decide, by decide, by decide, by decide, by decide⟩

/-- The C2 run: 600 poll ticks (the full 5-minute deadline at 500ms per
tick) with the response file never appearing. -/
def c2Run : RdvWorld × Option hookDecision :=
  handlePermissionRequest 1000 "s1" "Bash" "input-json" "sugg-json"
    (List.replicate 600 ((1001 : Int), RspRead.absent))
    { sessions := rdvRegistry, rspPresent := false, hbPresent := false,
      hbMtime := 0, rspLoopRemovals := 0 }

set_option maxRecDepth 20000 in
/-- C2 (behavior at the failing input): on the 5-minute deadline with
no response the hook terminates without emitting a decision, but it
performs NO cleanup: `os.Exit(0)` bypasses the deferred
`os.Remove(heartbeatPath)` and `clearActionBarPermission`, so the
heartbeat file is still present and the registry still shows the
session as `"needs approval"` with its tool fields — where the claim
requires the heartbeat removed and the pending fields cleared back to
`"working"`. -/
theorem timeout_run_performs_no_cleanup :
    c2Run.2 = none
  ∧ c2Run.1.hbPresent = true
  ∧ absLookup "s1" c2Run.1.sessions
      = some ⟨"proj", "needs approval", "", 7, 1000, "Bash", "input-json", "sugg-json"⟩ := by
  refine ⟨by decide, by decide, by decide⟩

end PeonPing
